import Mathlib

/-!
Verification development for the `bulut` voice-widget repository.

The definitions below are shallow embeddings of the TypeScript source:

* `Json`, `jsonParse` — the strict JSON parser used via `JSON.parse` in
  `src/utils/streamingJson.ts` (numbers keep their lexeme: the claims only
  discriminate on the runtime type of values, never on numeric magnitude).
* `completeJSON` — the repair step of the streaming lexer, embedded from the
  executable model of the `streaming-json` dependency given by `MockLexer`
  in `src/utils/streamingJson.test.ts` (quote-parity close, brace balancing;
  a deficit of opening braces makes `repeat` throw, modelled as `none`).
* `ParserState`, `appendChunk`, `extractField` — `StreamingJsonParser`.
* The VAD sampling loop, widget recording state machine and
  `resolveRuntimeConfig` from `src/index.tsx`.
* `parseAgentResponse` — modelled from the spec (its source file is absent).
-/

/-- A parsed JSON value.  Numbers keep their source lexeme verbatim; the
program only ever asks `typeof value === "string"`, never a number's value. -/
inductive Json where
  | null
  | bool (b : Bool)
  | num (lexeme : String)
  | str (s : String)
  | arr (elems : List Json)
  | obj (fields : List (String × Json))
  deriving Repr, Inhabited

/-- JSON whitespace skipping (space, tab, newline, carriage return). -/
def skipWs : List Char → List Char
  | c :: rest =>
      if c = ' ' ∨ c = '\t' ∨ c = '\n' ∨ c = '\r' then skipWs rest else c :: rest
  | [] => []

/-- Hex digit value, for `\u` escapes. -/
def hexVal (c : Char) : Option Nat :=
  if '0' ≤ c ∧ c ≤ '9' then some (c.toNat - '0'.toNat)
  else if 'a' ≤ c ∧ c ≤ 'f' then some (c.toNat - 'a'.toNat + 10)
  else if 'A' ≤ c ∧ c ≤ 'F' then some (c.toNat - 'A'.toNat + 10)
  else none

/-- Body of a JSON string literal after the opening quote: returns the decoded
characters and the remainder after the closing quote.  Escapes follow
`JSON.parse`; raw control characters are rejected. -/
def parseStrBody : Nat → List Char → Option (List Char × List Char)
  | 0, _ => none
  | _, [] => none
  | fuel + 1, c :: rest =>
    if c = '"' then some ([], rest)
    else if c = '\\' then
      match rest with
      | [] => none
      | e :: rest2 =>
        if e = '"' then (parseStrBody fuel rest2).map (fun p => ('"' :: p.1, p.2))
        else if e = '\\' then (parseStrBody fuel rest2).map (fun p => ('\\' :: p.1, p.2))
        else if e = '/' then (parseStrBody fuel rest2).map (fun p => ('/' :: p.1, p.2))
        else if e = 'b' then (parseStrBody fuel rest2).map (fun p => (Char.ofNat 8 :: p.1, p.2))
        else if e = 'f' then (parseStrBody fuel rest2).map (fun p => (Char.ofNat 12 :: p.1, p.2))
        else if e = 'n' then (parseStrBody fuel rest2).map (fun p => ('\n' :: p.1, p.2))
        else if e = 'r' then (parseStrBody fuel rest2).map (fun p => ('\r' :: p.1, p.2))
        else if e = 't' then (parseStrBody fuel rest2).map (fun p => ('\t' :: p.1, p.2))
        else if e = 'u' then
          match rest2 with
          | h1 :: h2 :: h3 :: h4 :: rest3 =>
            match hexVal h1, hexVal h2, hexVal h3, hexVal h4 with
            | some a, some b, some c2, some d =>
                (parseStrBody fuel rest3).map
                  (fun p => (Char.ofNat (((a * 16 + b) * 16 + c2) * 16 + d) :: p.1, p.2))
            | _, _, _, _ => none
          | _ => none
        else none
    else if c.toNat < 32 then none
    else (parseStrBody fuel rest).map (fun p => (c :: p.1, p.2))

/-- Longest prefix of decimal digits. -/
def takeDigits (cs : List Char) : List Char × List Char :=
  cs.span (·.isDigit)

/-- Optional JSON fraction part `(\.[0-9]+)?`; `none` on a bare dot. -/
def parseFrac : List Char → Option (List Char × List Char)
  | '.' :: r =>
    let (ds, r2) := takeDigits r
    if ds.isEmpty then none else some ('.' :: ds, r2)
  | cs => some ([], cs)

/-- Optional JSON exponent part `([eE][+-]?[0-9]+)?`; `none` on a bare marker. -/
def parseExp : List Char → Option (List Char × List Char)
  | e :: r =>
    if e = 'e' ∨ e = 'E' then
      let (sgn, r2) :=
        match r with
        | s :: r3 => if s = '+' ∨ s = '-' then ([s], r3) else (([] : List Char), s :: r3)
        | [] => (([] : List Char), ([] : List Char))
      let (ds, r4) := takeDigits r2
      if ds.isEmpty then none else some (e :: (sgn ++ ds), r4)
    else some ([], e :: r)
  | [] => some ([], [])

/-- JSON number lexeme: `-?[0-9]+(\.[0-9]+)?([eE][+-]?[0-9]+)?`.
Returns the lexeme and the remainder. -/
def parseNumber (cs : List Char) : Option (List Char × List Char) :=
  let (sign, cs1) :=
    match cs with
    | '-' :: r => ([('-' : Char)], r)
    | _ => (([] : List Char), cs)
  match cs1 with
  | [] => none
  | c :: rest =>
    if c.isDigit then
      let (intPart, afterInt) :=
        if c = '0' then ([c], rest)
        else
          let (ds, r) := takeDigits rest
          (c :: ds, r)
      match parseFrac afterInt with
      | none => none
      | some (fp, afterFrac) =>
        match parseExp afterFrac with
        | none => none
        | some (ep, afterExp) => some (sign ++ intPart ++ fp ++ ep, afterExp)
    else none

/-- Match a literal keyword (`null`, `true`, `false`). -/
def matchLit : List Char → List Char → Option (List Char)
  | [], cs => some cs
  | k :: ks, c :: cs => if c = k then matchLit ks cs else none
  | _ :: _, [] => none

mutual

/-- Recursive-descent JSON value parser (fuelled for termination). -/
def parseValue : Nat → List Char → Option (Json × List Char)
  | 0, _ => none
  | fuel + 1, cs =>
    match skipWs cs with
    | [] => none
    | c :: rest =>
      if c = 'n' then (matchLit ['u', 'l', 'l'] rest).map (fun r => (Json.null, r))
      else if c = 't' then (matchLit ['r', 'u', 'e'] rest).map (fun r => (Json.bool true, r))
      else if c = 'f' then
        (matchLit ['a', 'l', 's', 'e'] rest).map (fun r => (Json.bool false, r))
      else if c = '"' then
        (parseStrBody (rest.length + 1) rest).map (fun p => (Json.str (String.mk p.1), p.2))
      else if c = '[' then
        match skipWs rest with
        | ']' :: r => some (Json.arr [], r)
        | other => (parseElems fuel other).map (fun p => (Json.arr p.1, p.2))
      else if c = '\x7b' then
        match skipWs rest with
        | '\x7d' :: r => some (Json.obj [], r)
        | other => (parseMembers fuel other).map (fun p => (Json.obj p.1, p.2))
      else
        (parseNumber (c :: rest)).map (fun p => (Json.num (String.mk p.1), p.2))

/-- Array elements after `[` (first element upcoming), through the closing `]`. -/
def parseElems : Nat → List Char → Option (List Json × List Char)
  | 0, _ => none
  | fuel + 1, cs =>
    match parseValue fuel cs with
    | none => none
    | some (v, rest) =>
      match skipWs rest with
      | ',' :: r => (parseElems fuel r).map (fun p => (v :: p.1, p.2))
      | ']' :: r => some ([v], r)
      | _ => none

/-- Object members after `\x7b` (first member upcoming), through the closing
`\x7d`. -/
def parseMembers : Nat → List Char → Option (List (String × Json) × List Char)
  | 0, _ => none
  | fuel + 1, cs =>
    match skipWs cs with
    | '"' :: rest =>
      match parseStrBody (rest.length + 1) rest with
      | none => none
      | some (key, rest2) =>
        match skipWs rest2 with
        | ':' :: rest3 =>
          match parseValue fuel rest3 with
          | none => none
          | some (v, rest4) =>
            match skipWs rest4 with
            | ',' :: r => (parseMembers fuel r).map (fun p => ((String.mk key, v) :: p.1, p.2))
            | '\x7d' :: r => some ([(String.mk key, v)], r)
            | _ => none
        | _ => none
    | _ => none

end

/-- `JSON.parse`: parse a complete document, allowing only trailing whitespace. -/
def jsonParse (s : String) : Option Json :=
  match parseValue (s.length + 1) s.toList with
  | some (v, rest) => if skipWs rest = [] then some v else none
  | none => none

example : jsonParse "\x7b\"reply\": \"Hello, world!\"\x7d"
    = some (Json.obj [("reply", Json.str "Hello, world!")]) := by rfl
example : jsonParse "\x7b\"a\": 1\x7d" = some (Json.obj [("a", Json.num "1")]) := by rfl
example : jsonParse "oops" = none := by rfl
example : jsonParse "[1, true, null]"
    = some (Json.arr [Json.num "1", Json.bool true, Json.null]) := by rfl

/-! ## The streaming lexer (`streaming-json` dependency)

Embedded from the executable model the repository itself supplies: the
`MockLexer` in `src/utils/streamingJson.test.ts`.  `AppendString`
concatenates onto the buffer; `CompleteJSON` closes an odd number of
unescaped quotes and appends the missing closing braces.  When the buffer
holds more `\x7d` than `\x7b`, `'\x7d'.repeat(negative)` throws in
JavaScript; that outcome is modelled as `none` (the caller catches it). -/

/-- Number of matches of the regex `(?<!\\)"`: double quotes not directly
preceded by a backslash.  `prev` is the previous character, if any. -/
def quoteCountAux : Option Char → List Char → Nat
  | _, [] => 0
  | prev, c :: rest =>
    (if c = '"' ∧ prev ≠ some '\\' then 1 else 0) + quoteCountAux (some c) rest

/-- Quote count of a whole buffer. -/
def quoteCount (s : String) : Nat :=
  quoteCountAux none s.toList

/-- `MockLexer.CompleteJSON`: best-effort repair of an incomplete buffer. -/
def completeJSON (buffer : String) : Option String :=
  let withQuote := if quoteCount buffer % 2 = 1 then buffer ++ "\"" else buffer
  let openBraces := withQuote.toList.count '\x7b'
  let closeBraces := withQuote.toList.count '\x7d'
  if closeBraces ≤ openBraces then
    some (withQuote ++ String.mk (List.replicate (openBraces - closeBraces) '\x7d'))
  else none

/-! ## `StreamingJsonParser` (`src/utils/streamingJson.ts`) -/

/-- The mutable state of one `StreamingJsonParser` instance: the lexer's
accumulated buffer and the sticky `lastExtractedValue`. -/
structure ParserState where
  buffer : String
  lastExtractedValue : String
  deriving Repr, DecidableEq

/-- A freshly constructed `StreamingJsonParser` (also the result of `reset()`). -/
def newParser : ParserState := ⟨"", ""⟩

/-- `appendChunk`: the lexer's `AppendString` concatenates onto the buffer. -/
def appendChunk (chunk : String) (st : ParserState) : ParserState :=
  { st with buffer := st.buffer ++ chunk }

/-- Decimal digits to a number; `none` when a non-digit appears. -/
def digitsToNat? : List Char → Nat → Option Nat
  | [], acc => some acc
  | c :: rest, acc =>
      if c.isDigit then digitsToNat? rest (acc * 10 + (c.toNat - '0'.toNat)) else none

/-- Canonical JavaScript array-index property names ("0", "1", ...; no
leading zeros). -/
def jsArrayIndex? (f : String) : Option Nat :=
  match f.toList with
  | [] => none
  | ['0'] => some 0
  | c :: rest => if c.isDigit ∧ c ≠ '0' then digitsToNat? (c :: rest) 0 else none

/-- JavaScript `fieldName in parsed` followed by reading `parsed[fieldName]`,
for a `JSON.parse` result that passed `parsed && typeof parsed === "object"`
(i.e. an object or an array; `null` and primitives fall through to `none`).
Duplicate keys resolve to the last occurrence, as in `JSON.parse`.
Prototype-chain hits (`"toString" in {}` is true) are collapsed to `none`:
no `Object`/`Array` prototype property is a string, so they can never pass
the `typeof value === "string"` test that guards every use of this lookup. -/
def jsMember (j : Json) (fieldName : String) : Option Json :=
  match j with
  | Json.obj fields => (fields.reverse.find? (fun p => p.1 == fieldName)).map (fun p => p.2)
  | Json.arr elems =>
      if fieldName = "length" then some (Json.num (toString elems.length))
      else
        match jsArrayIndex? fieldName with
        | some i => elems.get? i
        | none => none
  | _ => none

/-- `extractField`: repair the buffer, parse it, and if the field resolves to
a string value, update the sticky value (unless the new value is empty while
a previous non-empty value exists).  Any repair/parse failure is caught and
the previous value returned.  Returns the reported value and the new state. -/
def extractField (fieldName : String) (st : ParserState) : String × ParserState :=
  let st' :=
    match completeJSON st.buffer with
    | none => st
    | some completeJson =>
      match jsonParse completeJson with
      | none => st
      | some parsed =>
        match jsMember parsed fieldName with
        | some (Json.str value) =>
            if value ≠ "" ∨ st.lastExtractedValue = "" then
              { st with lastExtractedValue := value }
            else st
        | _ => st
  (st'.lastExtractedValue, st')

/-- `extractReplyText`: the convenience wrapper for the `"reply"` field. -/
def extractReplyText (st : ParserState) : String × ParserState :=
  extractField "reply" st

/-- Feeding a list of chunks in order via `appendChunk`. -/
def feedChunks (chunks : List String) (st : ParserState) : ParserState :=
  chunks.foldl (fun s c => appendChunk c s) st

/-- One observable operation on a parser instance (no `reset()`). -/
inductive ParserOp where
  | append (chunk : String)
  | extract (fieldName : String)

/-- Effect of one operation on the parser state. -/
def applyOp (st : ParserState) : ParserOp → ParserState
  | ParserOp.append c => appendChunk c st
  | ParserOp.extract f => (extractField f st).2

/-- Effect of a call sequence on the parser state. -/
def runOps : List ParserOp → ParserState → ParserState
  | [], st => st
  | op :: rest, st => runOps rest (applyOp st op)

example :
    (extractReplyText (appendChunk "\x7b\"reply\": \"Hel" newParser)).1 = "Hel" := by rfl
example :
    (extractReplyText (appendChunk "lo, wor"
      (extractReplyText (appendChunk "\x7b\"reply\": \"Hel" newParser)).2)).1
      = "Hello, wor" := by rfl
example :
    (extractReplyText (appendChunk "\x7b\"reply\": \"Hello, world!\"\x7d" newParser)).1
      = "Hello, world!" := by rfl

/-! ## VAD sampling loop (`src/index.tsx`, `startButtonRecording`)

The interval callback runs every 50 ms while the recorder is active.  Each
tick reads a normalized volume in `[0,1]`; volumes are modelled as rationals
and the tick at index `i` happens at time `VAD_TICK_MS * i` milliseconds. -/

/-- `VAD_THRESHOLD = 0.06` (src/index.tsx line 134). -/
def VAD_THRESHOLD : ℚ := 6 / 100

/-- `SILENCE_DURATION_MS = 1000` (src/index.tsx line 135). -/
def SILENCE_DURATION_MS : ℕ := 1000

/-- The VAD interval period (`window.setInterval(..., 50)`). -/
def VAD_TICK_MS : ℕ := 50

/-- Mutable state shared by the VAD ticks: the `speechDetected` local and the
`silenceStartRef` timestamp (in milliseconds). -/
structure VadState where
  speechDetected : Bool
  silenceStart : Option ℕ
  deriving Repr, DecidableEq

/-- The VAD state at recorder start: no speech seen, no silence timestamp. -/
def initVad : VadState := ⟨false, none⟩

/-- One tick of the VAD interval callback at time `now` with volume `volume`,
while the recorder is active.  Returns the updated state and whether
`recorder.stop()` was called on this tick. -/
def vadTick (st : VadState) (now : ℕ) (volume : ℚ) : VadState × Bool :=
  if volume < VAD_THRESHOLD then
    match st.silenceStart with
    | none => ({ st with silenceStart := some now }, false)
    | some s => (st, st.speechDetected && decide (SILENCE_DURATION_MS < now - s))
  else ({ speechDetected := true, silenceStart := none }, false)

/-- Run the tick loop on a volume sample sequence starting at tick index `i`;
the loop ends (`true`) as soon as a tick stops the recorder. -/
def vadRun : VadState → ℕ → List ℚ → Bool
  | _, _, [] => false
  | st, i, v :: rest =>
    match vadTick st (VAD_TICK_MS * i) v with
    | (_, true) => true
    | (st', false) => vadRun st' (i + 1) rest

/-- Whether a session whose ticks sample the given volumes is auto-stopped. -/
def vadStops (vs : List ℚ) : Bool :=
  vadRun initVad 0 vs

/-- The VAD state after processing a sample list without stopping. -/
def vadFold : VadState → ℕ → List ℚ → VadState
  | st, _, [] => st
  | st, i, v :: rest => vadFold (vadTick st (VAD_TICK_MS * i) v).1 (i + 1) rest

example : vadStops [(1 : ℚ)/10, 0, 0, 0, 0] = false := by
  norm_num [vadStops, vadRun, vadTick, initVad, VAD_THRESHOLD, SILENCE_DURATION_MS,
    VAD_TICK_MS]
example : vadStops (List.replicate 30 (0 : ℚ)) = false := by
  norm_num [vadStops, vadRun, vadTick, initVad, VAD_THRESHOLD, SILENCE_DURATION_MS,
    VAD_TICK_MS, List.replicate]

/-! ## Widget recording state machine (`src/index.tsx`) -/

/-- The recording-related mutable state of one `BulutWidget` instance:
the `isRecording`/`isProcessing` flags (state and ref move together), the
auto-listen suppression ref, the preview bubble text, and the capture
resources (`streamRef`, `recorderRef`, `audioContextRef`, `vadIntervalRef`,
`silenceStartRef`, `audioChunksRef` — chunks modelled by their byte sizes;
`ondataavailable` only ever pushes chunks of non-zero size). -/
structure WidgetState where
  isRecording : Bool
  isProcessing : Bool
  autoListenSuppressed : Bool
  previewMessage : Option String
  hasStream : Bool
  hasRecorder : Bool
  hasAudioContext : Bool
  hasVadInterval : Bool
  silenceStart : Option ℕ
  audioChunks : List ℕ
  deriving Repr, DecidableEq

/-- `cleanupRecording`: clears the VAD interval, closes the audio context,
stops the media tracks and resets the silence timestamp. -/
def cleanupRecording (st : WidgetState) : WidgetState :=
  { st with hasVadInterval := false, hasAudioContext := false, hasStream := false,
            silenceStart := none }

/-- Environment outcome of `navigator.mediaDevices.getUserMedia`: the stream
is acquired (with or without `AudioContext` support for the VAD), or the
promise rejects with an error whose message is given. -/
inductive MicOutcome where
  | success (audioCtxSupported : Bool)
  | failure (message : String)

/-- Whether `needle` occurs at the start of `cs`. -/
def listStartsWith : List Char → List Char → Bool
  | _, [] => true
  | [], _ :: _ => false
  | c :: cs, p :: ps => c = p && listStartsWith cs ps

/-- Whether `needle` occurs contiguously anywhere in `cs`. -/
def listContainsSeq : List Char → List Char → Bool
  | [], needle => needle.isEmpty
  | c :: rest, needle => listStartsWith (c :: rest) needle || listContainsSeq rest needle

/-- JavaScript `String.prototype.includes`. -/
def jsIncludes (s sub : String) : Bool :=
  listContainsSeq s.toList sub.toList

/-- JavaScript `String.prototype.toLowerCase` (ASCII range; the messages the
program tests against it are ASCII error strings). -/
def jsToLower (s : String) : String :=
  String.mk (s.toList.map Char.toLower)

example : jsIncludes "permission denied" "permission" = true := by decide
example : jsIncludes "device busy" "permission" = false := by decide
example : jsToLower "Permission DENIED" = "permission denied" := by decide

/-- `startButtonRecording` up to the point where the recorder is running (or
the catch block has run).  The guard returns before any mutation; otherwise
auto-listen suppression is cleared, the preview set, and the capture either
starts or the catch block aborts it (suppressing auto-listen only when the
error message contains "permission" after lower-casing). -/
def startButtonRecording (st : WidgetState) (mic : MicOutcome) : WidgetState :=
  if st.isRecording || st.isProcessing then st
  else
    let st1 := { st with autoListenSuppressed := false,
                         previewMessage := some "Dinliyor..." }
    match mic with
    | MicOutcome.success audioCtxSupported =>
        { st1 with hasStream := true, hasRecorder := true, audioChunks := [],
                   hasAudioContext := audioCtxSupported,
                   hasVadInterval := audioCtxSupported,
                   isRecording := true }
    | MicOutcome.failure message =>
        let st2 := { st1 with
          autoListenSuppressed := jsIncludes (jsToLower message) "permission",
          previewMessage := none }
        { cleanupRecording st2 with isRecording := false }

/-- Whether the accessibility auto-listen effect (and its 250 ms timer
re-check) would call `startButtonRecording` in the given state. -/
def autoListenFires (accessibilityMode : Bool) (st : WidgetState) : Bool :=
  accessibilityMode && !st.isRecording && !st.isProcessing && !st.autoListenSuppressed

/-- `recorder.onstop` followed, when the blob is non-empty, by the
synchronous prefix of `sendAudioAndPreview` (its early-return on a missing
project id and the transition into `Processing`).  Returns the new state and
whether an upload was issued. -/
def recorderOnStop (projectId : String) (st : WidgetState) : WidgetState × Bool :=
  let st1 := cleanupRecording { st with isRecording := false }
  let blobSize := st1.audioChunks.foldl (· + ·) 0
  let st2 := { st1 with audioChunks := [] }
  if blobSize = 0 then ({ st2 with previewMessage := none }, false)
  else if projectId = "" then (st2, false)
  else ({ st2 with isProcessing := true, previewMessage := some "Düşünüyor..." }, true)

/-! ## `resolveRuntimeConfig` (`src/index.tsx`) -/

/-- `BulutOptions`: every field optional (`undefined` modelled as `none`). -/
structure BulutOptions where
  containerId : Option String := none
  backendBaseUrl : Option String := none
  projectId : Option String := none
  model : Option String := none
  voice : Option String := none
  baseColor : Option String := none
  agentName : Option String := none
  deriving Repr, DecidableEq

/-- `BulutRuntimeConfig`. -/
structure BulutRuntimeConfig where
  backendBaseUrl : String
  projectId : String
  model : String
  voice : String
  baseColor : String
  agentName : String
  deriving Repr, DecidableEq

/-- `DEFAULT_CONFIG` (voice default is declared as "zeynep" there). -/
def DEFAULT_CONFIG : BulutRuntimeConfig :=
  { backendBaseUrl := "https://api.bulut.lu"
    projectId := ""
    model := "google/gemini-3-flash-preview:nitro"
    voice := "zeynep"
    baseColor := "#6C03C1"
    agentName := "Bulut" }

/-- JavaScript `a || b` for an optional string `a`: the default is used when
`a` is `undefined` or the empty string (both falsy). -/
def jsOr (o : Option String) (d : String) : String :=
  match o with
  | some s => if s = "" then d else s
  | none => d

/-- Hex digit test used by the `#([0-9a-fA-F]{3}|[0-9a-fA-F]{6})` pattern. -/
def isHexDigit (c : Char) : Bool :=
  c.isDigit || ('a' ≤ c && c ≤ 'f') || ('A' ≤ c && c ≤ 'F')

/-- `isValidHexColor`. -/
def isValidHexColor (value : String) : Bool :=
  match value.toList with
  | '#' :: rest => (rest.length == 3 || rest.length == 6) && rest.all isHexDigit
  | _ => false

/-- `normalizeHexColor`: trim, validate, expand 3-digit form, lower-case. -/
def normalizeHexColor (value : String) : String :=
  let trimmed := value.trim
  if !isValidHexColor trimmed then DEFAULT_CONFIG.baseColor
  else
    match trimmed.toList with
    | ['#', r, g, b] => jsToLower (String.mk ['#', r, r, g, g, b, b])
    | _ => jsToLower trimmed

/-- `resolveRuntimeConfig`: merge explicit options over the defaults.  The
voice is "zeynep" exactly when the option strictly equals "zeynep". -/
def resolveRuntimeConfig (options : BulutOptions) : BulutRuntimeConfig :=
  let voice := if options.voice = some "zeynep" then "zeynep" else "ali"
  { backendBaseUrl := jsOr options.backendBaseUrl DEFAULT_CONFIG.backendBaseUrl
    projectId := jsOr options.projectId DEFAULT_CONFIG.projectId
    model := jsOr options.model DEFAULT_CONFIG.model
    voice := voice
    baseColor := normalizeHexColor (jsOr options.baseColor DEFAULT_CONFIG.baseColor)
    agentName := jsOr options.agentName DEFAULT_CONFIG.agentName }

example : (resolveRuntimeConfig {}).voice = "ali" := by decide
example : (resolveRuntimeConfig { voice := some "zeynep" }).voice = "zeynep" := by decide

/-! ## `parseAgentResponse` (Modelled from the spec)

The file defining `parseAgentResponse` (`src/agent/tools.ts`) is not in the
source tree; only its unit tests (`src/agent/tools.test.ts`) are.  The
definitions in this section are modelled from spec §4.2 and pinned by those
tests where the two disagree (the test "keeps only valid tool entries from
mixed list" drops a `scroll` entry lacking a selector, overriding the spec's
"entry always kept if tag matches" wording for `scroll`). -/

/-- A validated tool call (spec §3 `ToolCall`): the payload shape is fully
determined by the tag.  `interact`'s optional `text`/`x`/`y` pass through
untyped-narrowed, so they are kept as raw JSON values when present. -/
inductive ToolCall where
  | navigate (url : String)
  | interact (action : String) (selector : String)
      (text : Option Json) (x : Option Json) (y : Option Json)
  | scroll (selector : String)
  | getPageContext
  deriving Repr

/-- The fixed allow-list for `interact.action` (spec §4.2: click/type/set). -/
def INTERACT_ACTIONS : List String := ["click", "type", "set"]

/-- The parse result `\x7b reply, toolCalls \x7d` (spec §3). -/
structure ParsedAgentResponse where
  reply : String
  toolCalls : List ToolCall
  deriving Repr

/-- Modelled from the spec: validation of one candidate tool-call entry
(spec §4.2, `src/agent/tools.ts` absent).  `navigate` requires a non-empty
`url`; `interact` requires an allow-listed `action` and non-empty `selector`;
`getPageContext` requires only its tag; `scroll` requires a non-empty
`selector` (pinned by `tools.test.ts`, which drops a selector-less scroll).
Unknown tags and structurally invalid entries yield `none`. -/
def validateToolCall (e : Json) : Option ToolCall :=
  match e with
  | Json.obj fields =>
    match jsMember (Json.obj fields) "tool" with
    | some (Json.str "navigate") =>
      match jsMember (Json.obj fields) "url" with
      | some (Json.str u) => if u = "" then none else some (ToolCall.navigate u)
      | _ => none
    | some (Json.str "interact") =>
      match jsMember (Json.obj fields) "action", jsMember (Json.obj fields) "selector" with
      | some (Json.str a), some (Json.str sel) =>
        if a ∈ INTERACT_ACTIONS ∧ sel ≠ "" then
          some (ToolCall.interact a sel (jsMember (Json.obj fields) "text")
            (jsMember (Json.obj fields) "x") (jsMember (Json.obj fields) "y"))
        else none
      | _, _ => none
    | some (Json.str "scroll") =>
      match jsMember (Json.obj fields) "selector" with
      | some (Json.str sel) => if sel = "" then none else some (ToolCall.scroll sel)
      | _ => none
    | some (Json.str "getPageContext") => some ToolCall.getPageContext
    | _ => none
  | _ => none

/-- Modelled from the spec: the `reply` field of a parsed object (string,
defaults to empty). -/
def replyOf (fields : List (String × Json)) : String :=
  match jsMember (Json.obj fields) "reply" with
  | some (Json.str s) => s
  | _ => ""

/-- Modelled from the spec: tool calls come from `tool_calls` or `toolCalls`
(first present wins); each entry is validated and invalid ones dropped. -/
def toolCallsOf (fields : List (String × Json)) : List ToolCall :=
  match jsMember (Json.obj fields) "tool_calls" with
  | some (Json.arr entries) => entries.filterMap validateToolCall
  | some _ => []
  | none =>
    match jsMember (Json.obj fields) "toolCalls" with
    | some (Json.arr entries) => entries.filterMap validateToolCall
    | _ => []

/-- JavaScript whitespace characters handled by `trim`. -/
def isWsChar (c : Char) : Bool :=
  c = ' ' || c = '\t' || c = '\n' || c = '\r'

/-- JavaScript `String.prototype.trim` (ASCII whitespace). -/
def jsTrim (s : String) : String :=
  String.mk (((s.toList.dropWhile isWsChar).reverse.dropWhile isWsChar).reverse)

/-- Split at the first occurrence of `needle`: the part before it and the
part after it. -/
def splitAtSeq : List Char → List Char → Option (List Char × List Char)
  | [], needle => if needle.isEmpty then some ([], []) else none
  | c :: rest, needle =>
    if listStartsWith (c :: rest) needle then some ([], (c :: rest).drop needle.length)
    else (splitAtSeq rest needle).map (fun p => (c :: p.1, p.2))

/-- A triple-backtick code fence delimiter. -/
def fenceChars : List Char := List.replicate 3 (Char.ofNat 96)

/-- Modelled from the spec: the inner content of the first fenced code block,
with an optional `json` language tag stripped. -/
def fencedBlock (raw : String) : Option (List Char) :=
  match splitAtSeq raw.toList fenceChars with
  | none => none
  | some (_, afterOpen) =>
    match splitAtSeq afterOpen fenceChars with
    | none => none
    | some (inner, _) =>
      if listStartsWith inner ['j', 's', 'o', 'n'] then some (inner.drop 4) else some inner

/-- Walk a brace span, keeping a nesting depth, until the span closes. -/
def balancedSpan : List Char → Nat → List Char → Option (List Char)
  | [], _, _ => none
  | c :: rest, depth, acc =>
    if c = '\x7b' then balancedSpan rest (depth + 1) (c :: acc)
    else if c = '\x7d' then
      if depth ≤ 1 then some ((c :: acc).reverse)
      else balancedSpan rest (depth - 1) (c :: acc)
    else balancedSpan rest depth (c :: acc)

/-- Modelled from the spec: the first balanced `\x7b...\x7d` span embedded
anywhere in the text. -/
def firstBalancedSpan (cs : List Char) : Option (List Char) :=
  match splitAtSeq cs ['\x7b'] with
  | none => none
  | some (_, after) => balancedSpan ('\x7b' :: after) 0 []

/-- Modelled from the spec: `parseAgentResponse` (spec §4.2; its source file
`src/agent/tools.ts` is absent).  Tiers in order of preference: direct parse
of the trimmed text, fenced code block, first balanced brace span, and the
raw-text fallback with an empty tool-call list.  A tier succeeds when its
candidate parses to a JSON object. -/
def parseAgentResponse (raw : String) : ParsedAgentResponse :=
  let fromJson : Json → Option ParsedAgentResponse := fun j =>
    match j with
    | Json.obj fields => some ⟨replyOf fields, toolCallsOf fields⟩
    | _ => none
  match (jsonParse (jsTrim raw)).bind fromJson with
  | some r => r
  | none =>
    match (fencedBlock raw).bind (fun inner => (jsonParse (String.mk inner)).bind fromJson) with
    | some r => r
    | none =>
      match (firstBalancedSpan raw.toList).bind
          (fun span => (jsonParse (String.mk span)).bind fromJson) with
      | some r => r
      | none => ⟨raw, []⟩

/-- The claim-side characterization of a valid tool-call entry, written from
the claim's words: an `interact` entry needs an allow-listed action and a
non-empty selector, a `navigate` entry needs a non-empty `url`, a
`getPageContext` entry needs only its tag, and (amended) a `scroll` entry
needs a non-empty `selector`. -/
def claimValidEntry (e : Json) : Bool :=
  match jsMember e "tool" with
  | some (Json.str tag) =>
    if tag = "navigate" then
      match jsMember e "url" with
      | some (Json.str u) => decide (u ≠ "")
      | _ => false
    else if tag = "interact" then
      match jsMember e "action", jsMember e "selector" with
      | some (Json.str a), some (Json.str sel) => decide (a ∈ INTERACT_ACTIONS ∧ sel ≠ "")
      | _, _ => false
    else if tag = "scroll" then
      match jsMember e "selector" with
      | some (Json.str sel) => decide (sel ≠ "")
      | _ => false
    else if tag = "getPageContext" then true
    else false
  | _ => false

example :
    (parseAgentResponse "\x7b\"reply\":\"Merhaba\",\"tool_calls\":[\x7b\"tool\":\"navigate\",\"url\":\"/dashboard\"\x7d]\x7d").toolCalls
      = [ToolCall.navigate "/dashboard"] := by rfl
example : (parseAgentResponse "normal metin ama json degil").reply
    = "normal metin ama json degil" := by rfl

/-! ## Shared helper lemmas -/

/-- The idle widget state: nothing recording, nothing processing, no capture
resources held. -/
def idleWidget : WidgetState :=
  ⟨false, false, false, none, false, false, false, false, none, []⟩

/-- The value reported by `extractField` is the sticky value of the state it
returns. -/
theorem extractField_fst (f : String) (st : ParserState) :
    (extractField f st).1 = ((extractField f st).2).lastExtractedValue := rfl

/-- One `extractField` call never empties a non-empty sticky value. -/
theorem lastValue_nonempty_extract (f : String) (st : ParserState)
    (h : st.lastExtractedValue ≠ "") :
    ((extractField f st).2).lastExtractedValue ≠ "" := by
  cases hc : completeJSON st.buffer with
  | none => simpa [extractField, hc] using h
  | some cj =>
    cases hp : jsonParse cj with
    | none => simpa [extractField, hc, hp] using h
    | some parsed =>
      cases hm : jsMember parsed f with
      | none => simpa [extractField, hc, hp, hm] using h
      | some v =>
        cases v with
        | str s =>
          by_cases hs : s = ""
          · simpa [extractField, hc, hp, hm, hs, h] using h
          · simpa [extractField, hc, hp, hm, hs] using hs
        | null => simpa [extractField, hc, hp, hm] using h
        | bool b => simpa [extractField, hc, hp, hm] using h
        | num l => simpa [extractField, hc, hp, hm] using h
        | arr es => simpa [extractField, hc, hp, hm] using h
        | obj fs => simpa [extractField, hc, hp, hm] using h

/-- No call sequence empties a non-empty sticky value. -/
theorem runOps_preserves_nonempty (ops : List ParserOp) (st : ParserState)
    (h : st.lastExtractedValue ≠ "") :
    (runOps ops st).lastExtractedValue ≠ "" := by
  induction ops generalizing st with
  | nil => exact h
  | cons op rest ih =>
    cases op with
    | append c => exact ih _ h
    | extract f => exact ih _ (lastValue_nonempty_extract f st h)

/-- Feeding chunks concatenates them onto the buffer and leaves the sticky
value alone. -/
theorem feedChunks_state (chunks : List String) (st : ParserState) :
    feedChunks chunks st
      = ⟨chunks.foldl (fun a c => a ++ c) st.buffer, st.lastExtractedValue⟩ := by
  induction chunks generalizing st with
  | nil => rfl
  | cons c cs ih => simpa [feedChunks, appendChunk] using ih (appendChunk c st)

/-! ## Claim C1 -/

/-- C1: for every complete JSON document `D` whose field `F` has a string
value, and for every splitting of `D` into an ordered chunk sequence, feeding
all chunks into a fresh parser and then calling `extractField F` returns the
same string as feeding `D` in a single `appendChunk` call to a fresh parser
and calling `extractField F`. -/
theorem c1_chunking_equivalence (D F : String) (chunks : List String)
    (fields : List (String × Json)) (v : String)
    (hsplit : String.join chunks = D)
    (hdoc : jsonParse D = some (Json.obj fields))
    (hfield : jsMember (Json.obj fields) F = some (Json.str v)) :
    (extractField F (feedChunks chunks newParser)).1
      = (extractField F (appendChunk D newParser)).1 := by
  have hb : feedChunks chunks newParser = appendChunk D newParser := by
    rw [feedChunks_state]
    have hj : chunks.foldl (fun a c => a ++ c) "" = D := hsplit
    simp [newParser, appendChunk, hj]
  rw [hb]

/-- C1 witness: the spec's own example document and splitting. -/
theorem c1_chunking_equivalence_witness :
    String.join ["\x7b\"reply\":\"Hel", "lo, world!\"\x7d"]
        = "\x7b\"reply\":\"Hello, world!\"\x7d" ∧
    jsonParse "\x7b\"reply\":\"Hello, world!\"\x7d"
        = some (Json.obj [("reply", Json.str "Hello, world!")]) ∧
    jsMember (Json.obj [("reply", Json.str "Hello, world!")]) "reply"
        = some (Json.str "Hello, world!") ∧
    (extractField "reply"
        (feedChunks ["\x7b\"reply\":\"Hel", "lo, world!\"\x7d"] newParser)).1
      = (extractField "reply"
          (appendChunk "\x7b\"reply\":\"Hello, world!\"\x7d" newParser)).1 :=
  ⟨by rfl, by rfl, by rfl,
    c1_chunking_equivalence _ "reply" _ _ "Hello, world!" (by rfl) (by rfl) (by rfl)⟩

/-! ## Claim C2 -/

/-- C2: within one parser instance and any appendChunk/extractField call
sequence with no reset, once `extractField F` has returned a non-empty
string, every later `extractField F` call returns a non-empty string. -/
theorem c2_extract_monotone_nonempty (st : ParserState) (F : String)
    (ops : List ParserOp)
    (h : (extractField F st).1 ≠ "") :
    (extractField F (runOps ops (extractField F st).2)).1 ≠ "" := by
  have h2 : ((extractField F st).2).lastExtractedValue ≠ "" := h
  have h3 := runOps_preserves_nonempty ops _ h2
  exact lastValue_nonempty_extract F _ h3

/-- C2 witness: a successful extraction survives junk chunks and extraction
of a different field. -/
theorem c2_extract_monotone_nonempty_witness :
    (extractField "reply" (appendChunk "\x7b\"reply\":\"Hi\"\x7d" newParser)).1 ≠ "" ∧
    (extractField "reply"
        (runOps [ParserOp.append "xga", ParserOp.extract "other"]
          (extractField "reply" (appendChunk "\x7b\"reply\":\"Hi\"\x7d" newParser)).2)).1
      ≠ "" :=
  ⟨by decide, c2_extract_monotone_nonempty _ "reply" _ (by decide)⟩

/-! ## Claim C5 -/

/-- C5: `extractField` never propagates an error: whenever repair or parse of
the accumulated buffer fails, it returns the previously extracted value
(initially the empty string) and leaves the state unchanged. -/
theorem c5_parse_failure_keeps_value (st : ParserState) (fieldName : String)
    (h : (completeJSON st.buffer).bind jsonParse = none) :
    extractField fieldName st = (st.lastExtractedValue, st) := by
  cases hc : completeJSON st.buffer with
  | none => simp [extractField, hc]
  | some cj =>
    have hp : jsonParse cj = none := by simpa [hc] using h
    simp [extractField, hc, hp]

/-- C5 witness: a buffer that repairs to a non-JSON string. -/
theorem c5_parse_failure_keeps_value_witness :
    (completeJSON (appendChunk "oops" newParser).buffer).bind jsonParse = none ∧
    extractField "reply" (appendChunk "oops" newParser)
      = ("", appendChunk "oops" newParser) :=
  ⟨by rfl, c5_parse_failure_keeps_value _ "reply" (by rfl)⟩

/-! ## Claim C9 -/

/-- C9: when the repaired buffer parses but the requested field resolves to a
non-string value, `extractField` leaves the sticky value unchanged and
returns the previously extracted string; non-string values never overwrite
or clear it. -/
theorem c9_nonstring_field_keeps_value (st : ParserState) (fieldName : String)
    (cj : String) (parsed v : Json)
    (hc : completeJSON st.buffer = some cj)
    (hparse : jsonParse cj = some parsed)
    (hmem : jsMember parsed fieldName = some v)
    (hnonstr : ∀ s, v ≠ Json.str s) :
    extractField fieldName st = (st.lastExtractedValue, st) := by
  cases v with
  | str s => exact absurd rfl (hnonstr s)
  | null => simp [extractField, hc, hparse, hmem]
  | bool b => simp [extractField, hc, hparse, hmem]
  | num l => simp [extractField, hc, hparse, hmem]
  | arr es => simp [extractField, hc, hparse, hmem]
  | obj fs => simp [extractField, hc, hparse, hmem]

/-- C9 witness: a numeric field leaves the sticky value untouched. -/
theorem c9_nonstring_field_keeps_value_witness :
    completeJSON (appendChunk "\x7b\"a\": 1" newParser).buffer = some "\x7b\"a\": 1\x7d" ∧
    jsonParse "\x7b\"a\": 1\x7d" = some (Json.obj [("a", Json.num "1")]) ∧
    jsMember (Json.obj [("a", Json.num "1")]) "a" = some (Json.num "1") ∧
    extractField "a" (appendChunk "\x7b\"a\": 1" newParser)
      = ("", appendChunk "\x7b\"a\": 1" newParser) :=
  ⟨by rfl, by rfl, by rfl,
    c9_nonstring_field_keeps_value _ "a" _ _ _ (by rfl) (by rfl) (by rfl)
      (fun s h => Json.noConfusion h)⟩

/-! ## Claim C7 -/

/-- C7: calling the start-recording operation while a recording is in
progress (Listening) or a stream exchange is in progress (Processing) leaves
the entire widget state unchanged. -/
theorem c7_reentrancy_guard (st : WidgetState) (mic : MicOutcome)
    (h : st.isRecording = true ∨ st.isProcessing = true) :
    startButtonRecording st mic = st := by
  unfold startButtonRecording
  rcases h with h | h <;> simp [h]

/-- C7 witness: starting while Listening changes nothing. -/
theorem c7_reentrancy_guard_witness :
    startButtonRecording ⟨true, false, false, none, true, true, true, true, none, [7]⟩
        (MicOutcome.success true)
      = ⟨true, false, false, none, true, true, true, true, none, [7]⟩ :=
  c7_reentrancy_guard _ _ (Or.inl rfl)

/-! ## Claim C8 -/

/-- C8: when the recorder stops with zero accumulated audio bytes, the
controller returns directly to Idle: no upload is issued, the Processing
flag is never set, and the captured-chunk buffer is cleared. -/
theorem c8_empty_blob_returns_to_idle (projectId : String) (st : WidgetState)
    (hp : st.isProcessing = false)
    (hempty : st.audioChunks.foldl (· + ·) 0 = 0) :
    (recorderOnStop projectId st).2 = false ∧
    (recorderOnStop projectId st).1.isRecording = false ∧
    (recorderOnStop projectId st).1.isProcessing = false ∧
    (recorderOnStop projectId st).1.audioChunks = [] := by
  unfold recorderOnStop cleanupRecording
  simp [hempty, hp]

/-- C8 witness: a session that captured no chunks returns to Idle. -/
theorem c8_empty_blob_returns_to_idle_witness :
    (recorderOnStop "proj"
        ⟨true, false, false, some "Dinliyor...", true, true, true, true, none, []⟩).2
        = false ∧
    (recorderOnStop "proj"
        ⟨true, false, false, some "Dinliyor...", true, true, true, true, none, []⟩).1.isRecording
        = false ∧
    (recorderOnStop "proj"
        ⟨true, false, false, some "Dinliyor...", true, true, true, true, none, []⟩).1.isProcessing
        = false ∧
    (recorderOnStop "proj"
        ⟨true, false, false, some "Dinliyor...", true, true, true, true, none, []⟩).1.audioChunks
        = [] :=
  c8_empty_blob_returns_to_idle "proj" _ rfl rfl

/-! ## Claim C10 -/

/-- C10: `resolveRuntimeConfig` resolves the voice to "zeynep" only when the
supplied option is exactly the string "zeynep"; for every other input,
including an omitted voice option, the resolved voice is "ali" — so the
effective default voice is "ali", not "zeynep". -/
theorem c10_voice_default_is_ali (options : BulutOptions) :
    (resolveRuntimeConfig options).voice
      = (if options.voice = some "zeynep" then "zeynep" else "ali") := rfl

/-! ## Claim C4 -/

/-- Validation succeeds on exactly the entries the (amended) claim calls
valid. -/
theorem validateToolCall_isSome (e : Json) :
    (validateToolCall e).isSome = claimValidEntry e := by
  cases e with
  | null => rfl
  | bool b => rfl
  | num l => rfl
  | str s => rfl
  | arr es => rfl
  | obj fields =>
    simp only [validateToolCall, claimValidEntry]
    cases htool : jsMember (Json.obj fields) "tool" with
    | none => rfl
    | some v =>
      cases v <;> try rfl
      case str t =>
        by_cases h1 : t = "navigate"
        · subst h1
          simp only [if_pos rfl]
          cases hurl : jsMember (Json.obj fields) "url" with
          | none => rfl
          | some u =>
            cases u <;> try rfl
            next s => by_cases hs : s = "" <;> simp [hs]
        · by_cases h2 : t = "interact"
          · subst h2
            simp only [if_neg h1, if_pos rfl]
            cases hact : jsMember (Json.obj fields) "action" with
            | none => rfl
            | some a =>
              cases hsel : jsMember (Json.obj fields) "selector" with
              | none => cases a <;> rfl
              | some s =>
                cases a <;> cases s <;> try rfl
                next a2 s2 =>
                  by_cases hv : a2 ∈ INTERACT_ACTIONS ∧ s2 ≠ "" <;> simp [hv]
          · by_cases h3 : t = "scroll"
            · subst h3
              simp only [if_neg h1, if_neg h2, if_pos rfl]
              cases hsel : jsMember (Json.obj fields) "selector" with
              | none => rfl
              | some s =>
                cases s <;> try rfl
                next s2 => by_cases hs : s2 = "" <;> simp [hs]
            · by_cases h4 : t = "getPageContext"
              · subst h4
                simp only [if_neg h1, if_neg h2, if_neg h3, if_pos rfl]
                split <;> simp_all
              · simp only [if_neg h1, if_neg h2, if_neg h3, if_neg h4]
                split <;> simp_all

/-- The repository's mixed-list test input (`tools.test.ts`, "keeps only
valid tool entries from mixed list"). -/
def mixedListRaw : String :=
  "\x7b\"reply\":\"İşlem\",\"tool_calls\":[\x7b\"tool\":\"interact\",\"action\":\"click\",\"selector\":\"#ok\"\x7d,\x7b\"tool\":\"interact\",\"action\":\"invalid\",\"selector\":\"#x\"\x7d,\x7b\"tool\":\"navigate\",\"url\":\"/next\"\x7d,\x7b\"tool\":\"navigate\"\x7d,\x7b\"tool\":\"scroll\",\"selector\":\"section.features\"\x7d,\x7b\"tool\":\"scroll\"\x7d]\x7d"

set_option maxRecDepth 4000 in
/-- C4 counterexample: the claim says `scroll` entries are kept whenever
their tag matches, but on the repository's own mixed-list test input the
input holds two scroll-tagged entries (one with a selector, one without) and
the parse keeps only the one with a selector — the selector-less scroll
entry is dropped, exactly as the repository's test expects. -/
theorem c4_counterexample :
    (parseAgentResponse mixedListRaw).toolCalls
      = [ToolCall.interact "click" "#ok" none none none,
         ToolCall.navigate "/next",
         ToolCall.scroll "section.features"] ∧
    ((parseAgentResponse mixedListRaw).toolCalls.countP
        (fun tc => match tc with | ToolCall.scroll _ => true | _ => false)) = 1 :=
  ⟨by rfl, by rfl⟩

/-- C4 (amended): for every response whose trimmed text parses directly to a
JSON object with a `tool_calls` array, `parseAgentResponse` returns exactly
the entries that validate (an `interact` entry needs an allow-listed action
and non-empty selector, a `navigate` entry needs a non-empty `url`, a
`getPageContext` entry needs only its tag, and a `scroll` entry needs a
non-empty `selector`) in their original relative order, and invalid or
unknown-tag entries are dropped without failing the parse or affecting the
reply or sibling entries. -/
theorem c4_valid_entries_kept (raw : String) (fields : List (String × Json))
    (entries : List Json)
    (hparse : jsonParse (jsTrim raw) = some (Json.obj fields))
    (hcalls : jsMember (Json.obj fields) "tool_calls" = some (Json.arr entries)) :
    (parseAgentResponse raw).reply = replyOf fields ∧
    (parseAgentResponse raw).toolCalls = entries.filterMap validateToolCall ∧
    ∀ e ∈ entries, (validateToolCall e).isSome = claimValidEntry e := by
  have hpr : parseAgentResponse raw = ⟨replyOf fields, toolCallsOf fields⟩ := by
    unfold parseAgentResponse
    rw [hparse]
    rfl
  have htc : toolCallsOf fields = entries.filterMap validateToolCall := by
    unfold toolCallsOf
    rw [hcalls]
  exact ⟨by rw [hpr], by rw [hpr]; exact htc, fun e _ => validateToolCall_isSome e⟩

/-- The entry list of the spec's plain navigate example. -/
def navEntries : List Json :=
  [Json.obj [("tool", Json.str "navigate"), ("url", Json.str "/dashboard")]]

/-- The field list of the spec's plain navigate example. -/
def navFields : List (String × Json) :=
  [("reply", Json.str "Merhaba"), ("tool_calls", Json.arr navEntries)]

/-- C4 witness: the spec's navigate example, fed through the full parse. -/
theorem c4_valid_entries_kept_witness :
    (parseAgentResponse
        "\x7b\"reply\":\"Merhaba\",\"tool_calls\":[\x7b\"tool\":\"navigate\",\"url\":\"/dashboard\"\x7d]\x7d").reply
      = replyOf navFields ∧
    (parseAgentResponse
        "\x7b\"reply\":\"Merhaba\",\"tool_calls\":[\x7b\"tool\":\"navigate\",\"url\":\"/dashboard\"\x7d]\x7d").toolCalls
      = navEntries.filterMap validateToolCall ∧
    ∀ e ∈ navEntries, (validateToolCall e).isSome = claimValidEntry e :=
  c4_valid_entries_kept _ navFields navEntries (by rfl) (by rfl)

/-! ## Claim C6 -/

/-- C6 counterexample: the claim says every capture error suppresses the
accessibility auto-listen timer until the next explicit user action, but a
device-busy error (whose message does not contain "permission") leaves
auto-listen unsuppressed: the auto-listen effect fires again in the
resulting state and starts a new recording with no user action. -/
theorem c6_counterexample :
    (startButtonRecording idleWidget
        (MicOutcome.failure "NotReadableError: device busy")).autoListenSuppressed
      = false ∧
    autoListenFires true
        (startButtonRecording idleWidget
          (MicOutcome.failure "NotReadableError: device busy")) = true ∧
    (startButtonRecording
        (startButtonRecording idleWidget
          (MicOutcome.failure "NotReadableError: device busy"))
        (MicOutcome.success true)).isRecording = true :=
  ⟨by decide, by decide, by decide⟩

/-- C6 (amended): every capture error while starting a recording aborts it
and releases all capture resources (VAD interval, audio context, media
tracks, silence timestamp); auto-listen is suppressed until the next
explicit user start action only when the error message contains
"permission" case-insensitively (e.g. a microphone-permission denial);
a subsequent successful explicit start clears the suppression. -/
theorem c6_capture_error_handling (st : WidgetState) (msg : String)
    (hr : st.isRecording = false) (hp : st.isProcessing = false) :
    (startButtonRecording st (MicOutcome.failure msg)).isRecording = false ∧
    (startButtonRecording st (MicOutcome.failure msg)).hasStream = false ∧
    (startButtonRecording st (MicOutcome.failure msg)).hasAudioContext = false ∧
    (startButtonRecording st (MicOutcome.failure msg)).hasVadInterval = false ∧
    (startButtonRecording st (MicOutcome.failure msg)).silenceStart = none ∧
    (startButtonRecording st (MicOutcome.failure msg)).autoListenSuppressed
      = jsIncludes (jsToLower msg) "permission" ∧
    (∀ b, (startButtonRecording (startButtonRecording st (MicOutcome.failure msg))
        (MicOutcome.success b)).autoListenSuppressed = false) := by
  unfold startButtonRecording cleanupRecording
  simp [hr, hp]

/-- C6 witness: a permission-denied message suppresses auto-listen and the
resources are released. -/
theorem c6_capture_error_handling_witness :
    (startButtonRecording idleWidget (MicOutcome.failure "Permission denied")).isRecording
      = false ∧
    (startButtonRecording idleWidget (MicOutcome.failure "Permission denied")).hasStream
      = false ∧
    (startButtonRecording idleWidget
        (MicOutcome.failure "Permission denied")).hasAudioContext = false ∧
    (startButtonRecording idleWidget
        (MicOutcome.failure "Permission denied")).hasVadInterval = false ∧
    (startButtonRecording idleWidget (MicOutcome.failure "Permission denied")).silenceStart
      = none ∧
    (startButtonRecording idleWidget
        (MicOutcome.failure "Permission denied")).autoListenSuppressed
      = jsIncludes (jsToLower "Permission denied") "permission" ∧
    (∀ b, (startButtonRecording
        (startButtonRecording idleWidget (MicOutcome.failure "Permission denied"))
        (MicOutcome.success b)).autoListenSuppressed = false) :=
  c6_capture_error_handling idleWidget "Permission denied" rfl rfl

/-! ## Claim C3 -/

/-- A tick calls `recorder.stop()` exactly when the volume is below the
threshold, speech was detected earlier, a silence timestamp exists, and more
than the silence window has elapsed since it. -/
theorem vadTick_stop_iff (st : VadState) (now : ℕ) (v : ℚ) :
    (vadTick st now v).2 = true ↔
      v < VAD_THRESHOLD ∧ st.speechDetected = true ∧
        ∃ s, st.silenceStart = some s ∧ SILENCE_DURATION_MS < now - s := by
  unfold vadTick
  by_cases hv : v < VAD_THRESHOLD
  · cases hsil : st.silenceStart with
    | none => simp [hsil, hv]
    | some s => simp [hsil, hv]
  · simp [hv]

/-- A tick ORs "volume at or above threshold" into the speech flag. -/
theorem vadTick_speech (st : VadState) (now : ℕ) (v : ℚ) :
    ((vadTick st now v).1).speechDetected
      = (st.speechDetected || decide (VAD_THRESHOLD ≤ v)) := by
  unfold vadTick
  by_cases hv : v < VAD_THRESHOLD
  · have hn : ¬ VAD_THRESHOLD ≤ v := not_le.mpr hv
    cases hsil : st.silenceStart <;> simp [hsil, hv, hn]
  · have hy : VAD_THRESHOLD ≤ v := not_lt.mp hv
    simp [hv, hy]

/-- A quiet tick with no silence timestamp records the current time. -/
theorem vadTick_silence_quiet_none (st : VadState) (now : ℕ) (v : ℚ)
    (hv : v < VAD_THRESHOLD) (hsil : st.silenceStart = none) :
    ((vadTick st now v).1).silenceStart = some now := by
  unfold vadTick; simp [hv, hsil]

/-- A quiet tick keeps an existing silence timestamp. -/
theorem vadTick_silence_quiet_some (st : VadState) (now : ℕ) (v : ℚ) (s : ℕ)
    (hv : v < VAD_THRESHOLD) (hsil : st.silenceStart = some s) :
    ((vadTick st now v).1).silenceStart = some s := by
  unfold vadTick; simp [hv, hsil]

/-- A loud tick clears the silence timestamp. -/
theorem vadTick_silence_loud (st : VadState) (now : ℕ) (v : ℚ)
    (hv : ¬ v < VAD_THRESHOLD) :
    ((vadTick st now v).1).silenceStart = none := by
  unfold vadTick; simp [hv]

/-- Processing one more sample ticks the fold once at the right time. -/
theorem vadFold_append (l : List ℚ) (v : ℚ) : ∀ (st : VadState) (i : ℕ),
    vadFold st i (l ++ [v])
      = (vadTick (vadFold st i l) (VAD_TICK_MS * (i + l.length)) v).1 := by
  induction l with
  | nil => intro st i; simp [vadFold]
  | cons w l ih =>
    intro st i
    show vadFold (vadTick st (VAD_TICK_MS * i) w).1 (i + 1) (l ++ [v])
        = (vadTick (vadFold (vadTick st (VAD_TICK_MS * i) w).1 (i + 1) l)
            (VAD_TICK_MS * (i + (w :: l).length)) v).1
    rw [ih]
    have ht : (i + 1) + l.length = i + (w :: l).length := by
      simp only [List.length_cons]; omega
    rw [ht]

/-- The speech flag after a fold: it was set iff some processed sample was at
or above the threshold (or it was set before). -/
theorem vadFold_speech_spec (l : List ℚ) : ∀ (st : VadState) (i : ℕ),
    (vadFold st i l).speechDetected
      = (st.speechDetected || l.any (fun v => decide (VAD_THRESHOLD ≤ v))) := by
  induction l with
  | nil => intro st i; simp [vadFold]
  | cons v l ih =>
    intro st i
    simp only [vadFold, List.any_cons]
    rw [ih, vadTick_speech]
    simp [Bool.or_assoc]

/-- The silence timestamp is clear after a sample exactly when that last
sample was loud. -/
theorem vadFold_silence_none_append (l : List ℚ) (v : ℚ) (st : VadState) (i : ℕ) :
    ((vadFold st i (l ++ [v])).silenceStart = none) ↔ ¬ v < VAD_THRESHOLD := by
  rw [vadFold_append]
  by_cases hv : v < VAD_THRESHOLD
  · cases hsil : (vadFold st i l).silenceStart with
    | none => simp [vadTick_silence_quiet_none _ _ _ hv hsil, hv]
    | some s => simp [vadTick_silence_quiet_some _ _ _ _ hv hsil, hv]
  · simp [vadTick_silence_loud _ _ _ hv, hv]

/-- `getD` commutes with `take` below the cut. -/
theorem getD_take_of_lt : ∀ (vs : List ℚ) (k m : ℕ), m < k →
    (vs.take k).getD m 0 = vs.getD m 0 := by
  intro vs
  induction vs with
  | nil => intro k m h; simp
  | cons v rest ih =>
    intro k m h
    cases k with
    | zero => omega
    | succ k =>
      cases m with
      | zero => simp
      | succ m => simpa using ih k m (by omega)

/-- A loud sample exists iff a loud sample exists at some index. -/
theorem any_loud_iff_index (vs : List ℚ) :
    (vs.any fun v => decide (VAD_THRESHOLD ≤ v)) = true ↔
      ∃ j, j < vs.length ∧ VAD_THRESHOLD ≤ vs.getD j 0 := by
  induction vs with
  | nil => simp
  | cons v rest ih =>
    simp only [List.any_cons, Bool.or_eq_true, decide_eq_true_eq, ih]
    constructor
    · rintro (h | ⟨j, hj, hge⟩)
      · exact ⟨0, by simp, by simpa using h⟩
      · exact ⟨j + 1, by simpa using Nat.succ_lt_succ hj, by simpa using hge⟩
    · rintro ⟨j, hj, hge⟩
      cases j with
      | zero => exact Or.inl (by simpa using hge)
      | succ j =>
        exact Or.inr ⟨j, by simp at hj; omega, by simpa using hge⟩

/-- After processing the first samples of a session, the silence timestamp
reads `VAD_TICK_MS * s` exactly when index `s` starts the trailing run of
sub-threshold samples. -/
theorem vadFold_silence_spec (p : List ℚ) : ∀ t : ℕ,
    (vadFold initVad 0 p).silenceStart = some t ↔
      ∃ s, t = VAD_TICK_MS * s ∧ s < p.length ∧
        (∀ m, s ≤ m → m < p.length → p.getD m 0 < VAD_THRESHOLD) ∧
        (s = 0 ∨ VAD_THRESHOLD ≤ p.getD (s - 1) 0) := by
  induction p using List.reverseRecOn with
  | nil => intro t; simp [vadFold, initVad]
  | append_singleton l v ih =>
    intro t
    by_cases hv : v < VAD_THRESHOLD
    · cases hsil : (vadFold initVad 0 l).silenceStart with
      | none =>
        have hnew : (vadFold initVad 0 (l ++ [v])).silenceStart
            = some (VAD_TICK_MS * l.length) := by
          rw [vadFold_append]
          simpa using vadTick_silence_quiet_none _ _ _ hv hsil
        rw [hnew]
        rcases List.eq_nil_or_concat l with hl | ⟨l', v', hl⟩
        · subst hl
          constructor
          · intro h
            refine ⟨0, by simpa using h.symm, by simp, ?_, Or.inl rfl⟩
            intro m hm1 hm2
            have hm0 : m = 0 := by simpa using hm2
            subst hm0
            simpa using hv
          · rintro ⟨s, ht, hs, _, _⟩
            have hs0 : s = 0 := by simpa using hs
            subst hs0
            simpa using ht.symm
        · -- l ends in v', and v' must be loud since the timestamp is clear
          rw [List.concat_eq_append] at hl
          have hloud : ¬ v' < VAD_THRESHOLD := by
            rw [← vadFold_silence_none_append l' v' initVad 0, ← hl]
            exact hsil
          have hlen : l.length = l'.length + 1 := by simp [hl]
          have hlast : l.getD l'.length 0 = v' := by
            subst hl
            rw [List.getD_append_right l' [v'] 0 l'.length (le_refl _)]
            simp
          constructor
          · intro h
            have ht : t = VAD_TICK_MS * l.length := by simpa using h.symm
            refine ⟨l.length, ht, by simp, ?_, Or.inr ?_⟩
            · intro m hm1 hm2
              have hm : m = l.length := by
                simp only [List.length_append, List.length_singleton] at hm2
                omega
              subst hm
              rw [List.getD_append_right l [v] 0 l.length (le_refl _)]
              simpa using hv
            · have : l.length - 1 = l'.length := by omega
              rw [this, List.getD_append l [v] 0 l'.length (by omega)]
              rw [hlast]
              exact not_lt.mp hloud
          · rintro ⟨s, ht, hs, hquiet, _⟩
            have hsl : s = l.length := by
              by_contra hne
              have hslt : s < l.length := by
                simp only [List.length_append, List.length_singleton] at hs
                omega
              have hq := hquiet l'.length (by omega)
                (by simp only [List.length_append, List.length_singleton]; omega)
              rw [List.getD_append l [v] 0 l'.length (by omega), hlast] at hq
              exact hloud hq
            subst hsl
            simpa using ht.symm
      | some u =>
        have hnew : (vadFold initVad 0 (l ++ [v])).silenceStart = some u := by
          rw [vadFold_append]
          simpa using vadTick_silence_quiet_some _ _ _ _ hv hsil
        -- l is non-empty and ends quietly, since a timestamp is present
        rcases List.eq_nil_or_concat l with hl | ⟨l', v', hl⟩
        · subst hl
          simp [vadFold, initVad] at hsil
        · rw [List.concat_eq_append] at hl
          have hqlast : v' < VAD_THRESHOLD := by
            by_contra hq
            have : (vadFold initVad 0 l).silenceStart = none := by
              rw [hl, vadFold_silence_none_append]
              exact hq
            rw [this] at hsil
            cases hsil
          have hlen : l.length = l'.length + 1 := by simp [hl]
          have hlast : l.getD l'.length 0 = v' := by
            subst hl
            rw [List.getD_append_right l' [v'] 0 l'.length (le_refl _)]
            simp
          rw [hnew]
          have hiff : (some u = some (t : ℕ)) ↔ (vadFold initVad 0 l).silenceStart = some t := by
            rw [hsil]
          rw [Option.some_inj] at hiff ⊢
          rw [show (u = t ↔ _) from hiff.trans (ih t)]
          constructor
          · rintro ⟨s, ht, hs, hquiet, hbound⟩
            refine ⟨s, ht, by simp only [List.length_append, List.length_singleton]; omega, ?_, ?_⟩
            · intro m hm1 hm2
              simp only [List.length_append, List.length_singleton] at hm2
              rcases Nat.lt_or_ge m l.length with hmlt | hmge
              · rw [List.getD_append l [v] 0 m hmlt]
                exact hquiet m hm1 hmlt
              · have hm : m = l.length := by omega
                subst hm
                rw [List.getD_append_right l [v] 0 l.length (le_refl _)]
                simpa using hv
            · rcases hbound with h0 | hb
              · exact Or.inl h0
              · refine Or.inr ?_
                rwa [List.getD_append l [v] 0 (s - 1) (by omega)]
          · rintro ⟨s, ht, hs, hquiet, hbound⟩
            have hslt : s < l.length := by
              simp only [List.length_append, List.length_singleton] at hs
              rcases Nat.lt_or_ge s l.length with h | h
              · exact h
              · exfalso
                have hsl : s = l.length := by omega
                subst hsl
                rcases hbound with h0 | hb
                · rw [h0] at hlen
                  omega
                · rw [show l.length - 1 = l'.length from by omega,
                      List.getD_append l [v] 0 l'.length (by omega), hlast] at hb
                  exact absurd hb (not_le.mpr hqlast)
            refine ⟨s, ht, hslt, ?_, ?_⟩
            · intro m hm1 hm2
              have := hquiet m hm1 (by simp only [List.length_append, List.length_singleton]; omega)
              rwa [List.getD_append l [v] 0 m hm2] at this
            · rcases hbound with h0 | hb
              · exact Or.inl h0
              · refine Or.inr ?_
                rwa [List.getD_append l [v] 0 (s - 1) (by omega)] at hb
    · have hnew : (vadFold initVad 0 (l ++ [v])).silenceStart = none := by
        rw [vadFold_append]
        exact vadTick_silence_loud _ _ _ hv
      rw [hnew]
      constructor
      · intro h; cases h
      · rintro ⟨s, ht, hs, hquiet, _⟩
        exfalso
        have hsle : s ≤ l.length := by
          simp only [List.length_append, List.length_singleton] at hs
          omega
        have hq := hquiet l.length hsle
          (by simp only [List.length_append, List.length_singleton]; omega)
        rw [List.getD_append_right l [v] 0 l.length (le_refl _)] at hq
        simp at hq
        exact hv hq

/-- Every sub-threshold run extends left to a run start: either tick 0 or a
tick straight after a loud sample. -/
theorem run_start_exists (vs : List ℚ) (k : ℕ) : ∀ s,
    (∀ m, s ≤ m → m ≤ k → vs.getD m 0 < VAD_THRESHOLD) →
      ∃ s', s' ≤ s ∧ (∀ m, s' ≤ m → m ≤ k → vs.getD m 0 < VAD_THRESHOLD) ∧
        (s' = 0 ∨ VAD_THRESHOLD ≤ vs.getD (s' - 1) 0) := by
  intro s
  induction s using Nat.strong_induction_on with
  | _ s ih =>
    intro hQ
    cases s with
    | zero => exact ⟨0, le_refl 0, hQ, Or.inl rfl⟩
    | succ s0 =>
      by_cases hloud : VAD_THRESHOLD ≤ vs.getD s0 0
      · exact ⟨s0 + 1, le_refl _, hQ, Or.inr (by simpa using hloud)⟩
      · have hQ' : ∀ m, s0 ≤ m → m ≤ k → vs.getD m 0 < VAD_THRESHOLD := by
          intro m hm1 hm2
          rcases Nat.eq_or_lt_of_le hm1 with h | h
          · rw [← h]
            exact not_le.mp hloud
          · exact hQ m (by omega) hm2
        obtain ⟨s', h1, h2, h3⟩ := ih s0 (by omega) hQ'
        exact ⟨s', by omega, h2, h3⟩

/-- The loop stops iff some tick, reached with the state accumulated from the
earlier samples, fires the stop. -/
theorem vadRun_iff_fire (vs : List ℚ) : ∀ (st : VadState) (i : ℕ),
    vadRun st i vs = true ↔
      ∃ k, k < vs.length ∧
        (vadTick (vadFold st i (vs.take k)) (VAD_TICK_MS * (i + k)) (vs.getD k 0)).2
          = true := by
  induction vs with
  | nil => intro st i; simp [vadRun]
  | cons v rest ih =>
    intro st i
    rcases hstep : vadTick st (VAD_TICK_MS * i) v with ⟨st', b⟩
    cases b with
    | true =>
      constructor
      · intro _
        exact ⟨0, by simp, by simp [vadFold, hstep]⟩
      · intro _
        simp [vadRun, hstep]
    | false =>
      have hrun : vadRun st i (v :: rest) = vadRun st' (i + 1) rest := by
        simp [vadRun, hstep]
      rw [hrun, ih st' (i + 1)]
      constructor
      · rintro ⟨k, hk, hfire⟩
        refine ⟨k + 1, by simpa using Nat.succ_lt_succ hk, ?_⟩
        have h1 : vadFold st i ((v :: rest).take (k + 1)) = vadFold st' (i + 1) (rest.take k) := by
          simp [List.take_succ_cons, vadFold, hstep]
        rw [h1]
        have ht : i + (k + 1) = (i + 1) + k := by omega
        rw [ht]
        simpa using hfire
      · rintro ⟨k, hk, hfire⟩
        cases k with
        | zero =>
          exfalso
          have h0 : (vadTick st (VAD_TICK_MS * (i + 0)) ((v :: rest).getD 0 0)).2 = true := hfire
          rw [Nat.add_zero] at h0
          simp only [List.getD_cons_zero] at h0
          rw [hstep] at h0
          cases h0
        | succ k =>
          refine ⟨k, by simpa using hk, ?_⟩
          have h1 : vadFold st i ((v :: rest).take (k + 1)) = vadFold st' (i + 1) (rest.take k) := by
            simp [List.take_succ_cons, vadFold, hstep]
          rw [h1] at hfire
          have ht : i + (k + 1) = (i + 1) + k := by omega
          rw [ht] at hfire
          simpa using hfire

/-- C3: in the VAD sampling loop (50 ms ticks, threshold 0.06, silence
window 1000 ms), the recorder is auto-stopped at some tick iff there are
ticks `s ≤ … ≤ k`, all sampling below the threshold, spanning more than the
silence window, with some earlier sample at or above the threshold (speech
detected); in particular sub-threshold volume shorter than the window never
stops the recorder, and sub-threshold volume of any length with no prior
speech never stops it. -/
theorem c3_vad_autostop_iff (vs : List ℚ) :
    vadStops vs = true ↔
      ∃ s k, k < vs.length ∧
        SILENCE_DURATION_MS < VAD_TICK_MS * (k - s) ∧
        (∀ m, s ≤ m → m ≤ k → vs.getD m 0 < VAD_THRESHOLD) ∧
        (∃ j, j < s ∧ VAD_THRESHOLD ≤ vs.getD j 0) := by
  rw [vadStops, vadRun_iff_fire]
  constructor
  · rintro ⟨k, hk, hfire⟩
    rw [vadTick_stop_iff] at hfire
    obtain ⟨hq, hsp, t, hsil, htime⟩ := hfire
    have hlen : (vs.take k).length = k := by
      rw [List.length_take]
      omega
    obtain ⟨s, ht, hslen, hquiet, -⟩ := (vadFold_silence_spec (vs.take k) t).mp hsil
    rw [hlen] at hslen
    -- speech was detected within the first k samples
    have hany : ((vs.take k).any fun w => decide (VAD_THRESHOLD ≤ w)) = true := by
      have := vadFold_speech_spec (vs.take k) initVad 0
      rw [hsp] at this
      simpa [initVad] using this.symm
    obtain ⟨j, hj, hjloud⟩ := (any_loud_iff_index (vs.take k)).mp hany
    rw [hlen] at hj
    rw [getD_take_of_lt vs k j hj] at hjloud
    have hjs : j < s := by
      by_contra hgs
      have hjq := hquiet j (by omega) (by omega)
      rw [getD_take_of_lt vs k j hj] at hjq
      exact absurd hjloud (not_le.mpr hjq)
    refine ⟨s, k, hk, ?_, ?_, ⟨j, hjs, hjloud⟩⟩
    · subst ht
      simp only [SILENCE_DURATION_MS, VAD_TICK_MS] at htime ⊢
      omega
    · intro m hm1 hm2
      rcases Nat.lt_or_ge m k with hmlt | hmge
      · have := hquiet m hm1 (by omega)
        rwa [getD_take_of_lt vs k m hmlt] at this
      · have hm : m = k := by omega
        rw [hm]
        exact hq
  · rintro ⟨s, k, hk, htime, hquiet, j, hjs, hjloud⟩
    have hsk : s < k := by
      simp only [SILENCE_DURATION_MS, VAD_TICK_MS] at htime
      omega
    obtain ⟨s', hles, hquiet', hbound'⟩ := run_start_exists vs k s hquiet
    have hjs' : j < s' := by
      by_contra hgs
      have hjq := hquiet' j (by omega) (by omega)
      exact absurd hjloud (not_le.mpr hjq)
    have hlen : (vs.take k).length = k := by
      rw [List.length_take]
      omega
    refine ⟨k, hk, ?_⟩
    rw [vadTick_stop_iff]
    refine ⟨hquiet k (by omega) (le_refl k), ?_, VAD_TICK_MS * s', ?_, ?_⟩
    · rw [vadFold_speech_spec]
      have : ((vs.take k).any fun w => decide (VAD_THRESHOLD ≤ w)) = true := by
        rw [any_loud_iff_index (vs.take k)]
        refine ⟨j, by omega, ?_⟩
        rwa [getD_take_of_lt vs k j (by omega)]
      simp [initVad, this]
    · rw [vadFold_silence_spec]
      refine ⟨s', rfl, by rw [hlen]; omega, ?_, ?_⟩
      · intro m hm1 hm2
        rw [hlen] at hm2
        rw [getD_take_of_lt vs k m hm2]
        exact hquiet' m hm1 (by omega)
      · rcases hbound' with h0 | hb
        · exact Or.inl h0
        · refine Or.inr ?_
          rwa [getD_take_of_lt vs k (s' - 1) (by omega)]
    · simp only [SILENCE_DURATION_MS, VAD_TICK_MS] at htime ⊢
      omega
